import Mathlib

/-!
Verification development for the study-buddy backend.

The definitions below are shallow embeddings of the Python source:

* `documentStatsFor`, `overallStats`, `clearDocumentProgress` embed the
  SQLAlchemy queries of `app/routes/progress.py` over an explicit
  relational state (`DBState`);
* `mcqFromPages`, `generateMCQSync`, `processRemainingPages`,
  `generateMCQFull` embed the staged MCQ-generation pipeline of
  `app/routes/study.py` together with `app/services/llm_service.py`,
  with the external generation client abstracted as a function
  `Nat → String → Option (List GenQuestion)` (`none` models an API
  failure or malformed structured output, which the service skips);
* `generateFlashcardsEp` embeds the flashcard endpoint of
  `app/routes/study.py`.

Machine integers are modelled as `Nat`, SQL rows as lists, rational
arithmetic replaces Python float arithmetic, and Python's
`round(x, 2)` is modelled as round-half-even at two decimals.
-/

/-- A page text is blank when Python's `page_text.strip()` is falsy,
i.e. every character is whitespace. -/
def isBlank (s : String) : Bool :=
  s.data.all Char.isWhitespace

/-- Round-half-even to the nearest integer, the idealisation of
Python's `round`. -/
def roundHalfEven (x : ℚ) : ℤ :=
  let n := ⌊x⌋
  let r := x - n
  if r < 1/2 then n
  else if 1/2 < r then n + 1
  else if n % 2 = 0 then n else n + 1

/-- Python's `round(x, 2)`. -/
def round2 (x : ℚ) : ℚ :=
  (roundHalfEven (100 * x) : ℚ) / 100

/-- Row of the `study_documents` table. -/
structure StudyDocument where
  id : Nat
  userId : Nat
  filename : String
  pageCount : Nat
deriving Repr, DecidableEq

/-- A labelled choice of a multiple-choice question. -/
structure MCQChoice where
  id : String
  text : String
deriving Repr, DecidableEq

/-- A question candidate as produced by the generation client
(no database identity, no page number yet). -/
structure GenQuestion where
  question : String
  choices : List MCQChoice
  correctAnswer : String
  explanation : String
deriving Repr, DecidableEq

/-- Row of the `mcq_questions` table. -/
structure DBMCQQuestion where
  id : Nat
  documentId : Nat
  question : String
  choices : List MCQChoice
  correctAnswer : String
  explanation : String
  pageNumber : Nat
deriving Repr, DecidableEq

/-- Row of the `flashcards` table. -/
structure Flashcard where
  id : Nat
  documentId : Nat
  front : String
  back : String
  explanation : String
deriving Repr, DecidableEq

/-- Row of the `user_progress` table (an attempt record). -/
structure AttemptRecord where
  id : Nat
  userId : Nat
  documentId : Nat
  questionId : Nat
  isCorrect : Bool
  timestamp : Nat
deriving Repr, DecidableEq

/-- The relational state shared by all endpoints, with the
auto-increment counters the database would maintain. -/
structure DBState where
  documents : List StudyDocument
  questions : List DBMCQQuestion
  flashcards : List Flashcard
  attempts : List AttemptRecord
  nextQuestionId : Nat
  nextFlashcardId : Nat
deriving Repr, DecidableEq

/-! ## Progress aggregation (`app/routes/progress.py`) -/

/-- The `WHERE user_id = u AND document_id = d` filter used by every
progress query. -/
def attemptFilter (u d : Nat) (a : AttemptRecord) : Bool :=
  a.userId == u && a.documentId == d

/-- The user's attempt rows for one document. -/
def userDocAttempts (db : List AttemptRecord) (u d : Nat) : List AttemptRecord :=
  db.filter (attemptFilter u d)

/-- `SELECT COUNT(DISTINCT question_id)` : the distinct question ids
appearing in the user's attempts for the document. -/
def attemptedQids (db : List AttemptRecord) (u d : Nat) : List Nat :=
  ((userDocAttempts db u d).map (fun a => a.questionId)).dedup

/-- Ids of the attempts on question `q` within a set of attempt rows. -/
def idsOnQuestion (atts : List AttemptRecord) (q : Nat) : List Nat :=
  (atts.filter (fun a => a.questionId == q)).map (fun a => a.id)

/-- `MAX(id) GROUP BY question_id` : the largest attempt id for
question `q`. -/
def maxIdOn (atts : List AttemptRecord) (q : Nat) : Nat :=
  (idsOnQuestion atts q).max?.getD 0

/-- The `latest_attempts_subquery`: one latest-attempt id per distinct
attempted question. -/
def latestIds (db : List AttemptRecord) (u d : Nat) : List Nat :=
  (attemptedQids db u d).map (maxIdOn (userDocAttempts db u d))

/-- The `correct_count` query: the whole attempt table is joined on
`UserProgress.id == latest_id` and filtered on `is_correct`. -/
def correctCount (db : List AttemptRecord) (u d : Nat) : Nat :=
  (db.filter (fun a => a.isCorrect && (latestIds db u d).contains a.id)).length

/-- Specification-side reading of "the latest attempt on `q` has a true
correctness flag". -/
def latestIsCorrect (atts : List AttemptRecord) (q : Nat) : Bool :=
  atts.any (fun a => a.questionId == q && a.id == maxIdOn atts q && a.isCorrect)

/-- Specification-side correct count: distinct attempted questions whose
latest attempt is correct. -/
def latestCorrectCount (db : List AttemptRecord) (u d : Nat) : Nat :=
  ((attemptedQids db u d).filter (latestIsCorrect (userDocAttempts db u d))).length

/-- The derived per-document progress snapshot
(`DocumentProgressResponse`). -/
structure DocProgress where
  documentId : Nat
  totalQuestions : Nat
  attempted : Nat
  correct : Nat
  incorrect : Nat
  accuracy : ℚ
  lastAttempt : Option Nat
deriving Repr, DecidableEq

/-- The statistics computation shared by `get_document_progress` and the
per-document loop of `get_overall_stats`. -/
def documentStatsFor (st : DBState) (u d : Nat) : DocProgress :=
  let attempted := (attemptedQids st.attempts u d).length
  let correct := correctCount st.attempts u d
  { documentId := d
    totalQuestions := (st.questions.filter (fun q => q.documentId == d)).length
    attempted := attempted
    correct := correct
    incorrect := if attempted == 0 then 0 else attempted - correct
    accuracy := if attempted > 0 then round2 ((correct : ℚ) / attempted * 100) else 0
    lastAttempt := ((userDocAttempts st.attempts u d).map (fun a => a.timestamp)).max? }

/-- Accumulator of the `get_overall_stats` loop. -/
structure OverAcc where
  rows : List DocProgress
  ta : Nat
  tc : Nat
  ti : Nat
deriving Repr, DecidableEq

/-- The `for doc in documents_with_progress` loop: documents with zero
attempted questions are skipped, others contribute a row and their
counts. -/
def overallLoop (st : DBState) (u : Nat) : List StudyDocument → OverAcc → OverAcc
  | [], acc => acc
  | doc :: rest, acc =>
    let s := documentStatsFor st u doc.id
    if s.attempted == 0 then overallLoop st u rest acc
    else overallLoop st u rest ⟨acc.rows ++ [s], acc.ta + s.attempted, acc.tc + s.correct, acc.ti + s.incorrect⟩

/-- The overall rollup (`OverallStatsResponse`). -/
structure OverallStats where
  totalDocumentsStudied : Nat
  totalQuestionsAttempted : Nat
  totalCorrect : Nat
  totalIncorrect : Nat
  overallAccuracy : ℚ
  documentsProgress : List DocProgress
deriving Repr, DecidableEq

/-- `get_overall_stats`: iterate the user's documents, skip those with
no progress, sum the counts, recompute accuracy from the sums. -/
def overallStats (st : DBState) (u : Nat) : OverallStats :=
  let docs := st.documents.filter (fun doc => doc.userId == u)
  let acc := overallLoop st u docs ⟨[], 0, 0, 0⟩
  { totalDocumentsStudied := acc.rows.length
    totalQuestionsAttempted := acc.ta
    totalCorrect := acc.tc
    totalIncorrect := acc.ti
    overallAccuracy := if acc.ta > 0 then round2 ((acc.tc : ℚ) / acc.ta * 100) else 0
    documentsProgress := acc.rows }

/-- `clear_document_progress`: after the ownership check, delete the
requesting user's attempt rows for the document; `none` models the 404
path, in which nothing is deleted. -/
def clearDocumentProgress (st : DBState) (u d : Nat) : Option DBState :=
  if st.documents.any (fun doc => doc.id == d && doc.userId == u) then
    some { st with attempts := st.attempts.filter (fun a => !(attemptFilter u d a)) }
  else
    none

/-! ## Arithmetic helpers -/

theorem roundHalfEven_intCast (n : ℤ) : roundHalfEven (n : ℚ) = n := by
  simp [roundHalfEven]

theorem round2_eq_of (x : ℚ) (n : ℤ) (h : 100 * x = (n : ℚ)) :
    round2 x = (n : ℚ) / 100 := by
  rw [round2, h, roundHalfEven_intCast]

/-! ## Counting helpers for the latest-attempt join -/

theorem countP_or_disj {α : Type} (p q : α → Bool) :
    ∀ l : List α, (∀ a ∈ l, ¬(p a = true ∧ q a = true)) →
      l.countP (fun a => p a || q a) = l.countP p + l.countP q := by
  intro l
  induction l with
  | nil => intro _; simp
  | cons x xs ih =>
    intro h
    have hx := h x (List.mem_cons_self x xs)
    have ihx := ih (fun a ha => h a (List.mem_cons_of_mem _ ha))
    cases hp : p x with
    | true =>
      cases hq : q x with
      | true => exact absurd ⟨hp, hq⟩ hx
      | false =>
        simp [List.countP_cons, hp, hq, ihx]
        omega
    | false =>
      cases hq : q x with
      | true =>
        simp [List.countP_cons, hp, hq, ihx]
        omega
      | false =>
        simp [List.countP_cons, hp, hq, ihx]

theorem countP_eq_one_of_unique {α : Type} (p : α → Bool) (a : α) (hpa : p a = true) :
    ∀ l : List α, l.Nodup → a ∈ l → (∀ b ∈ l, p b = true → b = a) →
      l.countP p = 1 := by
  intro l
  induction l with
  | nil => intro _ ha _; simp at ha
  | cons x xs ih =>
    intro hnd ha huniq
    rw [List.nodup_cons] at hnd
    rcases List.mem_cons.mp ha with rfl | hmem
    · have h0 : xs.countP p = 0 := by
        rw [List.countP_eq_zero]
        intro b hb hpb
        have hb' := huniq b (List.mem_cons_of_mem _ hb) hpb
        rw [hb'] at hb
        exact hnd.1 hb
      simp [List.countP_cons, hpa, h0]
    · have hxa : x ≠ a := by
        intro hclash
        rw [hclash] at hnd
        exact hnd.1 hmem
      have hpx : p x = false := by
        cases hp : p x
        · rfl
        · exact absurd (huniq x (List.mem_cons_self x xs) hp) hxa
      have hrec := ih hnd.2 hmem (fun b hb hpb => huniq b (List.mem_cons_of_mem _ hb) hpb)
      simp [List.countP_cons, hpx, hrec]

/-- The maximum of a nonempty id list is attained. -/
theorem max_getD_mem (l : List Nat) (h : l ≠ []) : l.max?.getD 0 ∈ l := by
  cases hm : l.max? with
  | none => rw [List.max?_eq_none_iff] at hm; exact absurd hm h
  | some m => simpa using List.max?_mem (fun a b => max_choice a b) hm

/-- Every distinct attempted question has an attempt row attaining the
maximal id. -/
theorem exists_latest (atts : List AttemptRecord) (q : Nat)
    (hq : q ∈ (atts.map (fun a => a.questionId)).dedup) :
    ∃ r, r ∈ atts ∧ r.questionId = q ∧ r.id = maxIdOn atts q := by
  rw [List.mem_dedup, List.mem_map] at hq
  obtain ⟨r0, hr0, hq0⟩ := hq
  have hne : idsOnQuestion atts q ≠ [] := by
    have : r0.id ∈ idsOnQuestion atts q := by
      rw [idsOnQuestion]
      exact List.mem_map_of_mem _ (List.mem_filter.mpr ⟨hr0, by simp [hq0]⟩)
    exact List.ne_nil_of_mem this
  have hmem : maxIdOn atts q ∈ idsOnQuestion atts q := max_getD_mem _ hne
  rw [idsOnQuestion, List.mem_map] at hmem
  obtain ⟨r, hrmem, hid⟩ := hmem
  rw [List.mem_filter] at hrmem
  exact ⟨r, hrmem.1, by simpa using hrmem.2, hid⟩

/-- The SQL join `UserProgress.id == latest_id` filtered on `is_correct`
counts exactly the distinct attempted questions whose latest attempt was
correct, provided attempt ids are unique (the primary-key invariant). -/
theorem correct_join_count (db atts : List AttemptRecord)
    (hid : (db.map (fun a => a.id)).Nodup)
    (hsub : ∀ a ∈ atts, a ∈ db) :
    ∀ qs : List Nat, qs.Nodup →
      (∀ q ∈ qs, ∃ r, r ∈ atts ∧ r.questionId = q ∧ r.id = maxIdOn atts q) →
      (db.filter (fun a => a.isCorrect && (qs.map (maxIdOn atts)).contains a.id)).length
        = (qs.filter (latestIsCorrect atts)).length := by
  intro qs
  induction qs with
  | nil =>
    intro _ _
    simp
  | cons q qs ih =>
    intro hnd hwit
    rw [List.nodup_cons] at hnd
    obtain ⟨r, hr, hrq, hrid⟩ := hwit q (List.mem_cons_self q qs)
    have hinj : ∀ x ∈ db, ∀ y ∈ db, x.id = y.id → x = y := by
      intro x hx y hy hxy
      exact List.inj_on_of_nodup_map hid hx hy hxy
    have hnotin : ∀ q' ∈ qs, maxIdOn atts q' ≠ maxIdOn atts q := by
      intro q' hq' heq
      obtain ⟨r', hr', hrq', hrid'⟩ := hwit q' (List.mem_cons_of_mem _ hq')
      have hrr : r' = r := by
        apply hinj r' (hsub r' hr') r (hsub r hr)
        rw [hrid', heq, hrid]
      have hqq : q' = q := by rw [← hrq', hrr, hrq]
      rw [hqq] at hq'
      exact hnd.1 hq'
    have hsplit :
        (db.filter (fun a =>
            a.isCorrect && ((q :: qs).map (maxIdOn atts)).contains a.id)).length
          = (db.filter (fun a => a.isCorrect && a.id == maxIdOn atts q)).length
            + (db.filter (fun a =>
                a.isCorrect && (qs.map (maxIdOn atts)).contains a.id)).length := by
      rw [← List.countP_eq_length_filter, ← List.countP_eq_length_filter,
        ← List.countP_eq_length_filter]
      have hcong :
          db.countP (fun a =>
              a.isCorrect && ((q :: qs).map (maxIdOn atts)).contains a.id)
            = db.countP (fun a =>
                (a.isCorrect && a.id == maxIdOn atts q)
                  || (a.isCorrect && (qs.map (maxIdOn atts)).contains a.id)) := by
        apply List.countP_congr
        intro a _
        rw [List.map_cons, List.contains_cons, Bool.and_or_distrib_left]
      rw [hcong]
      apply countP_or_disj
      intro a _ hboth
      obtain ⟨h1, h2⟩ := hboth
      rw [Bool.and_eq_true, beq_iff_eq] at h1
      rw [Bool.and_eq_true] at h2
      have h2' := h2.2
      rw [List.contains_iff_exists_mem_beq] at h2'
      obtain ⟨mid, hmidmem, hmid⟩ := h2'
      rw [List.mem_map] at hmidmem
      obtain ⟨q', hq', hq'eq⟩ := hmidmem
      apply hnotin q' hq'
      rw [beq_iff_eq] at hmid
      rw [hq'eq, ← hmid, h1.2]
    have hhead :
        (db.filter (fun a => a.isCorrect && a.id == maxIdOn atts q)).length
          = if latestIsCorrect atts q then 1 else 0 := by
      cases hl : latestIsCorrect atts q
      · rw [← List.countP_eq_length_filter]
        simp only [if_neg Bool.false_ne_true]
        rw [List.countP_eq_zero]
        intro b hb hpb
        rw [Bool.and_eq_true, beq_iff_eq] at hpb
        have hbr : b = r := hinj b hb r (hsub r hr) (by rw [hpb.2, hrid])
        have : latestIsCorrect atts q = true := by
          rw [latestIsCorrect, List.any_eq_true]
          refine ⟨r, hr, ?_⟩
          simp only [Bool.and_eq_true, beq_iff_eq]
          refine ⟨⟨hrq, hrid⟩, ?_⟩
          rw [← hbr]
          exact hpb.1
        rw [hl] at this
        exact Bool.false_ne_true this
      · rw [latestIsCorrect, List.any_eq_true] at hl
        obtain ⟨s, hs, hsprop⟩ := hl
        simp only [Bool.and_eq_true, beq_iff_eq] at hsprop
        rw [← List.countP_eq_length_filter, if_pos rfl]
        apply countP_eq_one_of_unique _ s
        · simp only [Bool.and_eq_true, beq_iff_eq]
          exact ⟨hsprop.2, hsprop.1.2⟩
        · exact List.Nodup.of_map _ hid
        · exact hsub s hs
        · intro b hb hpb
          rw [Bool.and_eq_true, beq_iff_eq] at hpb
          exact hinj b hb s (hsub s hs) (by rw [hpb.2, hsprop.1.2])
    have htail := ih hnd.2 (fun q' hq' => hwit q' (List.mem_cons_of_mem _ hq'))
    rw [hsplit, hhead, htail, List.filter_cons]
    cases hl : latestIsCorrect atts q
    · simp [hl]
    · simp [hl]
      omega

/-- Under unique attempt ids, the code's join-based `correct_count`
equals the per-question latest-attempt count. -/
theorem correctCount_eq_latest (db : List AttemptRecord) (u d : Nat)
    (hid : (db.map (fun a => a.id)).Nodup) :
    correctCount db u d = latestCorrectCount db u d := by
  rw [correctCount, latestCorrectCount, latestIds]
  exact correct_join_count db (userDocAttempts db u d) hid
    (fun a ha => List.mem_of_mem_filter ha)
    (attemptedQids db u d) (List.nodup_dedup _)
    (fun q hq => exists_latest (userDocAttempts db u d) q hq)

/-! ## Structural facts about `documentStatsFor` -/

theorem documentStats_attempted (st : DBState) (u d : Nat) :
    (documentStatsFor st u d).attempted = (attemptedQids st.attempts u d).length := rfl

theorem documentStats_correct (st : DBState) (u d : Nat) :
    (documentStatsFor st u d).correct = correctCount st.attempts u d := rfl

theorem documentStats_documentId (st : DBState) (u d : Nat) :
    (documentStatsFor st u d).documentId = d := rfl

theorem documentStats_accuracy_formula (st : DBState) (u d : Nat) :
    (documentStatsFor st u d).accuracy
      = if (documentStatsFor st u d).attempted > 0
        then round2 (((documentStatsFor st u d).correct : ℚ)
          / (documentStatsFor st u d).attempted * 100)
        else 0 := rfl

theorem documentStats_incorrect_formula (st : DBState) (u d : Nat) :
    (documentStatsFor st u d).incorrect
      = (documentStatsFor st u d).attempted - (documentStatsFor st u d).correct := by
  show (if ((attemptedQids st.attempts u d).length == 0) = true then 0
      else (attemptedQids st.attempts u d).length - correctCount st.attempts u d)
    = (attemptedQids st.attempts u d).length - correctCount st.attempts u d
  rcases Nat.eq_zero_or_pos (attemptedQids st.attempts u d).length with h | h
  · simp [h]
  · have hne : ¬ (((attemptedQids st.attempts u d).length == 0) = true) := by
      rw [beq_iff_eq]
      omega
    rw [if_neg hne]

/-- The attempt log of the worked example: question 1 answered wrong at
id 10 and right at id 15, question 2 answered wrong at id 12. -/
def c1Attempts : List AttemptRecord :=
  [⟨10, 7, 1, 1, false, 100⟩, ⟨15, 7, 1, 1, true, 105⟩, ⟨12, 7, 1, 2, false, 102⟩]

/-- A state holding only the worked example's attempts. -/
def c1State : DBState := ⟨[⟨1, 7, "doc.pdf", 3⟩], [], [], c1Attempts, 1, 1⟩

/-- C1: `documentStats` deduplicates repeated attempts per question:
`attempted` counts distinct question identifiers in the user's attempts
for the document, each question's correctness is taken from the attempt
with the maximum identifier, `correct` counts latest attempts whose flag
is true, and `incorrect = attempted - correct`; on the worked log
[(q1,false,id 10), (q1,true,id 15), (q2,false,id 12)] the result is
attempted = 2, correct = 1, incorrect = 1, accuracy = 50. -/
theorem documentStats_latest_attempt_dedup (st : DBState) (u d : Nat)
    (hid : (st.attempts.map (fun a => a.id)).Nodup) :
    (documentStatsFor st u d).attempted
        = ((userDocAttempts st.attempts u d).map (fun a => a.questionId)).toFinset.card
      ∧ (documentStatsFor st u d).correct = latestCorrectCount st.attempts u d
      ∧ (documentStatsFor st u d).correct ≤ (documentStatsFor st u d).attempted
      ∧ (documentStatsFor st u d).incorrect
          = (documentStatsFor st u d).attempted - (documentStatsFor st u d).correct
      ∧ (documentStatsFor c1State 7 1).attempted = 2
      ∧ (documentStatsFor c1State 7 1).correct = 1
      ∧ (documentStatsFor c1State 7 1).incorrect = 1
      ∧ (documentStatsFor c1State 7 1).accuracy = 50 := by
  have hcorr : (documentStatsFor st u d).correct = latestCorrectCount st.attempts u d :=
    correctCount_eq_latest st.attempts u d hid
  refine ⟨?_, hcorr, ?_, documentStats_incorrect_formula st u d,
    by decide, by decide, by decide, ?_⟩
  · rw [List.card_toFinset]
    rfl
  · rw [hcorr, documentStats_attempted]
    exact List.length_filter_le _ _
  · rw [documentStats_accuracy_formula]
    have h1 : (documentStatsFor c1State 7 1).attempted = 2 := by decide
    have h2 : (documentStatsFor c1State 7 1).correct = 1 := by decide
    rw [h1, h2]
    norm_num
    rw [round2_eq_of _ 5000 (by norm_num)]
    norm_num

/-- Witness for C1 at the worked example. -/
theorem documentStats_latest_attempt_dedup_witness :
    ((c1State.attempts.map (fun a => a.id)).Nodup)
      ∧ ((documentStatsFor c1State 7 1).attempted
            = ((userDocAttempts c1State.attempts 7 1).map (fun a => a.questionId)).toFinset.card
          ∧ (documentStatsFor c1State 7 1).correct = latestCorrectCount c1State.attempts 7 1
          ∧ (documentStatsFor c1State 7 1).correct ≤ (documentStatsFor c1State 7 1).attempted
          ∧ (documentStatsFor c1State 7 1).incorrect
              = (documentStatsFor c1State 7 1).attempted - (documentStatsFor c1State 7 1).correct
          ∧ (documentStatsFor c1State 7 1).attempted = 2
          ∧ (documentStatsFor c1State 7 1).correct = 1
          ∧ (documentStatsFor c1State 7 1).incorrect = 1
          ∧ (documentStatsFor c1State 7 1).accuracy = 50) :=
  ⟨by decide, documentStats_latest_attempt_dedup c1State 7 1 (by decide)⟩

/-- A state with no rows at all. -/
def emptyState : DBState := ⟨[], [], [], [], 1, 1⟩

/-- C9: when zero questions were attempted the computed accuracy is
exactly 0 (the guarded branch, never a division), both in the
per-document statistics and in the overall rollup. -/
theorem accuracy_zero_when_no_attempts (st : DBState) (u d : Nat) :
    ((documentStatsFor st u d).attempted = 0 → (documentStatsFor st u d).accuracy = 0)
      ∧ ((overallStats st u).totalQuestionsAttempted = 0
          → (overallStats st u).overallAccuracy = 0) := by
  constructor
  · intro h
    rw [documentStats_accuracy_formula, h]
    simp
  · intro h
    have hform : (overallStats st u).overallAccuracy
        = if (overallStats st u).totalQuestionsAttempted > 0
          then round2 (((overallStats st u).totalCorrect : ℚ)
            / (overallStats st u).totalQuestionsAttempted * 100)
          else 0 := rfl
    rw [hform, h]
    simp

/-- Witness for C9 at the empty state. -/
theorem accuracy_zero_when_no_attempts_witness :
    (documentStatsFor emptyState 1 1).attempted = 0
      ∧ (documentStatsFor emptyState 1 1).accuracy = 0
      ∧ (overallStats emptyState 1).totalQuestionsAttempted = 0
      ∧ (overallStats emptyState 1).overallAccuracy = 0 :=
  ⟨by decide,
   (accuracy_zero_when_no_attempts emptyState 1 1).1 (by decide),
   by decide,
   (accuracy_zero_when_no_attempts emptyState 1 1).2 (by decide)⟩

/-! ## The overall rollup loop (`get_overall_stats`) -/

/-- Declarative reading of the rollup loop over a document list: keep
the documents with progress, in order, and take their snapshots. -/
def rowsOf (st : DBState) (u : Nat) (l : List StudyDocument) : List DocProgress :=
  (l.filter (fun doc => (documentStatsFor st u doc.id).attempted != 0)).map
    (fun doc => documentStatsFor st u doc.id)

/-- Declarative reading of the rollup's row list. -/
def overallRows (st : DBState) (u : Nat) : List DocProgress :=
  rowsOf st u (st.documents.filter (fun doc => doc.userId == u))

theorem overallLoop_spec (st : DBState) (u : Nat) :
    ∀ (l : List StudyDocument) (acc : OverAcc),
      overallLoop st u l acc
        = ⟨acc.rows ++ rowsOf st u l,
           acc.ta + ((rowsOf st u l).map (fun r => r.attempted)).sum,
           acc.tc + ((rowsOf st u l).map (fun r => r.correct)).sum,
           acc.ti + ((rowsOf st u l).map (fun r => r.incorrect)).sum⟩ := by
  intro l
  induction l with
  | nil =>
    intro acc
    simp [overallLoop, rowsOf]
  | cons doc rest ih =>
    intro acc
    by_cases h : (documentStatsFor st u doc.id).attempted = 0
    · have hb : ((documentStatsFor st u doc.id).attempted == 0) = true := by
        rw [beq_iff_eq]; exact h
      have hrows : rowsOf st u (doc :: rest) = rowsOf st u rest := by
        simp [rowsOf, List.filter_cons, h]
      simp only [overallLoop, hb, if_true]
      rw [ih acc, hrows]
    · have hb : ((documentStatsFor st u doc.id).attempted == 0) = false := by
        simp [h]
      have hrows : rowsOf st u (doc :: rest)
          = documentStatsFor st u doc.id :: rowsOf st u rest := by
        simp [rowsOf, List.filter_cons, h]
      simp only [overallLoop, hb, Bool.false_eq_true, if_false]
      rw [ih, hrows]
      simp only [List.map_cons, List.sum_cons, OverAcc.mk.injEq]
      refine ⟨by simp, by omega, by omega, by omega⟩

/-- A document has a nonzero attempted count exactly when the user has
at least one attempt row for it. -/
theorem attempted_ne_zero_iff (db : List AttemptRecord) (u d : Nat) :
    (attemptedQids db u d).length ≠ 0 ↔ ∃ a ∈ db, a.userId = u ∧ a.documentId = d := by
  constructor
  · intro h
    cases hl : userDocAttempts db u d with
    | nil =>
      exfalso
      apply h
      rw [attemptedQids, hl]
      rfl
    | cons a rest =>
      have ha : a ∈ userDocAttempts db u d := by
        rw [hl]
        exact List.mem_cons_self a rest
      rw [userDocAttempts, List.mem_filter] at ha
      refine ⟨a, ha.1, ?_⟩
      have hf := ha.2
      rw [attemptFilter, Bool.and_eq_true, beq_iff_eq, beq_iff_eq] at hf
      exact hf
  · rintro ⟨a, ha, h1, h2⟩
    have hmem : a.questionId ∈ attemptedQids db u d := by
      rw [attemptedQids, List.mem_dedup]
      apply List.mem_map_of_mem
      rw [userDocAttempts, List.mem_filter]
      refine ⟨ha, ?_⟩
      rw [attemptFilter]
      simp [h1, h2]
    intro hlen
    rw [List.length_eq_zero] at hlen
    rw [hlen] at hmem
    exact (List.not_mem_nil _) hmem

/-- Attempt log giving document 1 the totals (attempted 4, correct 3)
and document 2 the totals (attempted 6, correct 3), one attempt per
question. -/
def c2Attempts : List AttemptRecord :=
  [⟨1, 3, 1, 11, true, 1⟩, ⟨2, 3, 1, 12, true, 2⟩, ⟨3, 3, 1, 13, true, 3⟩,
   ⟨4, 3, 1, 14, false, 4⟩,
   ⟨11, 3, 2, 21, true, 11⟩, ⟨12, 3, 2, 22, true, 12⟩, ⟨13, 3, 2, 23, true, 13⟩,
   ⟨14, 3, 2, 24, false, 14⟩, ⟨15, 3, 2, 25, false, 15⟩, ⟨16, 3, 2, 26, false, 16⟩]

/-- Two documents of user 3 carrying the `c2Attempts` log. -/
def c2State : DBState :=
  ⟨[⟨1, 3, "a.pdf", 1⟩, ⟨2, 3, "b.pdf", 1⟩], [], [], c2Attempts, 1, 1⟩

/-- The closed formula for the rollup's accuracy field. -/
theorem overallStats_accuracy_formula (st : DBState) (u : Nat) :
    (overallStats st u).overallAccuracy
      = if (overallStats st u).totalQuestionsAttempted > 0
        then round2 (((overallStats st u).totalCorrect : ℚ)
          / (overallStats st u).totalQuestionsAttempted * 100)
        else 0 := rfl

/-- C2 counterexample: on two documents with (attempted 4, correct 3)
and (attempted 6, correct 3) the rollup accuracy is 60, not the claimed
30. -/
theorem overallStats_example_not_thirty :
    (overallStats c2State 3).documentsProgress.map (fun r => (r.attempted, r.correct))
        = [(4, 3), (6, 3)]
      ∧ (overallStats c2State 3).totalQuestionsAttempted = 10
      ∧ (overallStats c2State 3).totalCorrect = 6
      ∧ (overallStats c2State 3).overallAccuracy = 60
      ∧ (overallStats c2State 3).overallAccuracy ≠ 30 := by
  have hta : (overallStats c2State 3).totalQuestionsAttempted = 10 := by decide
  have htc : (overallStats c2State 3).totalCorrect = 6 := by decide
  have hacc : (overallStats c2State 3).overallAccuracy = 60 := by
    rw [overallStats_accuracy_formula, hta, htc]
    norm_num
    rw [round2_eq_of _ 6000 (by norm_num)]
    norm_num
  refine ⟨by decide, hta, htc, hacc, ?_⟩
  rw [hacc]
  norm_num

/-- C2 (amended): the rollup has a per-document row exactly for the
user's documents with at least one attempt (zero-attempt documents are
excluded, not reported as zero rows), sums attempted/correct/incorrect
across those rows, and recomputes overall accuracy from the summed
totals — not as an average of per-document accuracies; on two documents
with (attempted 4, correct 3) and (attempted 6, correct 3) the
per-document accuracies are 75 and 50, and the overall accuracy is
60.0 = 6/10*100, not their average 62.5 (and not the claimed 30.0). -/
theorem overallStats_rollup (st : DBState) (u : Nat) :
    (overallStats st u).documentsProgress = overallRows st u
      ∧ (∀ r ∈ (overallStats st u).documentsProgress, r.attempted ≠ 0)
      ∧ (∀ doc ∈ st.documents, doc.userId = u →
          (documentStatsFor st u doc.id ∈ (overallStats st u).documentsProgress
            ↔ ∃ a ∈ st.attempts, a.userId = u ∧ a.documentId = doc.id))
      ∧ (overallStats st u).totalQuestionsAttempted
          = (((overallStats st u).documentsProgress).map (fun r => r.attempted)).sum
      ∧ (overallStats st u).totalCorrect
          = (((overallStats st u).documentsProgress).map (fun r => r.correct)).sum
      ∧ (overallStats st u).totalIncorrect
          = (((overallStats st u).documentsProgress).map (fun r => r.incorrect)).sum
      ∧ (overallStats st u).totalDocumentsStudied
          = (overallStats st u).documentsProgress.length
      ∧ (overallStats st u).overallAccuracy
          = (if (overallStats st u).totalQuestionsAttempted > 0
             then round2 (((overallStats st u).totalCorrect : ℚ)
               / (overallStats st u).totalQuestionsAttempted * 100)
             else 0)
      ∧ (overallStats c2State 3).documentsProgress.map (fun r => r.accuracy) = [75, 50]
      ∧ (overallStats c2State 3).overallAccuracy = 60
      ∧ (overallStats c2State 3).overallAccuracy ≠ (75 + 50) / 2 := by
  have hloop := overallLoop_spec st u
    (st.documents.filter (fun doc => doc.userId == u)) ⟨[], 0, 0, 0⟩
  have hrows : (overallStats st u).documentsProgress = overallRows st u := by
    show (overallLoop st u (st.documents.filter (fun doc => doc.userId == u))
      ⟨[], 0, 0, 0⟩).rows = overallRows st u
    rw [hloop]
    simp [overallRows]
  have hta : (overallStats st u).totalQuestionsAttempted
      = ((overallRows st u).map (fun r => r.attempted)).sum := by
    show (overallLoop st u (st.documents.filter (fun doc => doc.userId == u))
      ⟨[], 0, 0, 0⟩).ta = ((overallRows st u).map (fun r => r.attempted)).sum
    rw [hloop]
    simp [overallRows]
  have htc : (overallStats st u).totalCorrect
      = ((overallRows st u).map (fun r => r.correct)).sum := by
    show (overallLoop st u (st.documents.filter (fun doc => doc.userId == u))
      ⟨[], 0, 0, 0⟩).tc = ((overallRows st u).map (fun r => r.correct)).sum
    rw [hloop]
    simp [overallRows]
  have hti : (overallStats st u).totalIncorrect
      = ((overallRows st u).map (fun r => r.incorrect)).sum := by
    show (overallLoop st u (st.documents.filter (fun doc => doc.userId == u))
      ⟨[], 0, 0, 0⟩).ti = ((overallRows st u).map (fun r => r.incorrect)).sum
    rw [hloop]
    simp [overallRows]
  have hacc60 : (overallStats c2State 3).overallAccuracy = 60 := by
    have hta2 : (overallStats c2State 3).totalQuestionsAttempted = 10 := by decide
    have htc2 : (overallStats c2State 3).totalCorrect = 6 := by decide
    rw [overallStats_accuracy_formula, hta2, htc2]
    norm_num
    rw [round2_eq_of _ 6000 (by norm_num)]
    norm_num
  refine ⟨hrows, ?_, ?_, by rw [hta, hrows], by rw [htc, hrows], by rw [hti, hrows],
    rfl, overallStats_accuracy_formula st u, ?_, hacc60, by rw [hacc60]; norm_num⟩
  · intro r hr
    rw [hrows, overallRows, rowsOf, List.mem_map] at hr
    obtain ⟨doc, hdoc, hre⟩ := hr
    rw [List.mem_filter] at hdoc
    have hne := hdoc.2
    rw [bne_iff_ne] at hne
    rw [← hre]
    exact hne
  · intro doc hdocmem hu
    rw [hrows, overallRows, rowsOf]
    constructor
    · intro hmem
      rw [List.mem_map] at hmem
      obtain ⟨doc2, hdoc2, heq⟩ := hmem
      rw [List.mem_filter, List.mem_filter] at hdoc2
      have hid : doc2.id = doc.id := by
        have hproj := congrArg DocProgress.documentId heq
        rw [documentStats_documentId, documentStats_documentId] at hproj
        exact hproj
      have hne := hdoc2.2
      rw [bne_iff_ne, documentStats_attempted, hid] at hne
      exact (attempted_ne_zero_iff st.attempts u doc.id).mp hne
    · intro hex
      have hne : (attemptedQids st.attempts u doc.id).length ≠ 0 :=
        (attempted_ne_zero_iff st.attempts u doc.id).mpr hex
      rw [List.mem_map]
      refine ⟨doc, ?_, rfl⟩
      rw [List.mem_filter, List.mem_filter]
      refine ⟨⟨hdocmem, by simp [hu]⟩, ?_⟩
      rw [bne_iff_ne, documentStats_attempted]
      exact hne
  · have hrows2 : (overallStats c2State 3).documentsProgress
        = [documentStatsFor c2State 3 1, documentStatsFor c2State 3 2] := by
      show (overallLoop c2State 3 (c2State.documents.filter (fun doc => doc.userId == 3))
        ⟨[], 0, 0, 0⟩).rows = [documentStatsFor c2State 3 1, documentStatsFor c2State 3 2]
      rw [overallLoop_spec]
      rfl
    rw [hrows2]
    simp only [List.map_cons, List.map_nil]
    have h1 : (documentStatsFor c2State 3 1).accuracy = 75 := by
      rw [documentStats_accuracy_formula]
      have ha : (documentStatsFor c2State 3 1).attempted = 4 := by decide
      have hc : (documentStatsFor c2State 3 1).correct = 3 := by decide
      rw [ha, hc]
      norm_num
      rw [round2_eq_of _ 7500 (by norm_num)]
      norm_num
    have h2 : (documentStatsFor c2State 3 2).accuracy = 50 := by
      rw [documentStats_accuracy_formula]
      have ha : (documentStatsFor c2State 3 2).attempted = 6 := by decide
      have hc : (documentStatsFor c2State 3 2).correct = 3 := by decide
      rw [ha, hc]
      norm_num
      rw [round2_eq_of _ 5000 (by norm_num)]
      norm_num
    rw [h1, h2]

/-- Witness for C2 (amended) at the two-document example state. -/
theorem overallStats_rollup_witness :
    (overallStats c2State 3).documentsProgress = overallRows c2State 3
      ∧ ((⟨1, 3, "a.pdf", 1⟩ : StudyDocument) ∈ c2State.documents)
      ∧ (documentStatsFor c2State 3 1 ∈ (overallStats c2State 3).documentsProgress
          ↔ ∃ a ∈ c2State.attempts, a.userId = 3 ∧ a.documentId = 1) :=
  ⟨(overallStats_rollup c2State 3).1, by decide,
   (overallStats_rollup c2State 3).2.2.1 ⟨1, 3, "a.pdf", 1⟩ (by decide) rfl⟩

/-! ## Staged MCQ generation (`app/routes/study.py`, `app/services/llm_service.py`) -/

/-- External generation client: requested count and page text in,
question candidates out; `none` models an API failure or malformed
structured output, which `llm_service` catches and skips. -/
def GenClient : Type := Nat → String → Option (List GenQuestion)

/-- A question as returned by `generate_mcq_questions_from_pages`
(the `schemas.study.MCQQuestion` shape). -/
structure PagedQuestion where
  id : Nat
  question : String
  choices : List MCQChoice
  correctAnswer : String
  explanation : String
  pageNumber : Nat
deriving Repr, DecidableEq

/-- Attach sequential question ids (from `startId`) and a page number to
a page's candidates, as the service loop does. -/
def tagQuestions : List GenQuestion → Nat → Nat → List PagedQuestion
  | [], _, _ => []
  | q :: qs, startId, pageNum =>
    ⟨startId, q.question, q.choices, q.correctAnswer, q.explanation, pageNum⟩
      :: tagQuestions qs (startId + 1) pageNum

/-- The page loop of `generate_mcq_questions_from_pages`: blank pages
are skipped, a failed or malformed client call skips the page, otherwise
the candidates are numbered and tagged with page index + 1. -/
def mcqFromPagesAux (gen : GenClient) (n : Nat) :
    List String → Nat → Nat → List PagedQuestion
  | [], _, _ => []
  | p :: rest, pageIdx, qid =>
    if isBlank p then mcqFromPagesAux gen n rest (pageIdx + 1) qid
    else
      match gen n p with
      | none => mcqFromPagesAux gen n rest (pageIdx + 1) qid
      | some qs =>
        tagQuestions qs qid (pageIdx + 1)
          ++ mcqFromPagesAux gen n rest (pageIdx + 1) (qid + qs.length)

/-- `generate_mcq_questions_from_pages`. -/
def mcqFromPages (gen : GenClient) (n : Nat) (pages : List String) : List PagedQuestion :=
  mcqFromPagesAux gen n pages 0 1

/-- Insert one generated question for a document and page; the database
assigns the next id. -/
def insertQuestion (st : DBState) (docId pageNum : Nat) (q : PagedQuestion) : DBState :=
  { st with
    questions := st.questions
      ++ [⟨st.nextQuestionId, docId, q.question, q.choices, q.correctAnswer,
           q.explanation, pageNum⟩]
    nextQuestionId := st.nextQuestionId + 1 }

/-- Insert a page's questions (the `db.add` loop followed by one
commit). -/
def insertQuestions (st : DBState) (docId pageNum : Nat)
    (qs : List PagedQuestion) : DBState :=
  qs.foldl (fun s q => insertQuestion s docId pageNum q) st

/-- The synchronous response of `generate_mcq_questions`. -/
structure MCQResponse where
  pageCount : Nat
  questions : List PagedQuestion
deriving Repr, DecidableEq

/-- Result of the synchronous stage, instrumented with the generation
calls it issued (count and page text). -/
structure SyncResult where
  response : MCQResponse
  state : DBState
  spawnBackground : Bool
  genCalls : List (Nat × String)
deriving Repr, DecidableEq

/-- The page-1 questions of the synchronous stage: generated only if a
first page exists and is non-blank. -/
def firstPageQs (gen : GenClient) (n : Nat) (pages : List String) : List PagedQuestion :=
  match pages with
  | [] => []
  | p :: _ => if isBlank p then [] else mcqFromPages gen n [p]

/-- The generation calls the synchronous stage issues (count and page
text): one for a non-blank first page, none otherwise. -/
def syncCallList (n : Nat) (pages : List String) : List (Nat × String) :=
  match pages with
  | [] => []
  | p :: _ => if isBlank p then [] else [(n, p)]

/-- The synchronous stage of `generate_mcq_questions`: generate for
page 1 only if it exists and is non-blank, persist its questions with
page_number 1, and decide to spawn the background thread exactly when
more than one page was extracted. -/
def generateMCQSync (gen : GenClient) (st : DBState) (docId : Nat)
    (pages : List String) (n : Nat) : SyncResult :=
  { response := ⟨pages.length, firstPageQs gen n pages⟩
    state := insertQuestions st docId 1 (firstPageQs gen n pages)
    spawnBackground := decide (pages.length > 1)
    genCalls := syncCallList n pages }

/-- The `process_remaining_pages` loop: enumerate the remaining pages
from 2, skip blank pages, generate per page, and commit each page's
questions individually before moving on. -/
def processRemainingAux (gen : GenClient) (n docId : Nat) :
    List String → Nat → DBState → DBState
  | [], _, st => st
  | p :: rest, pageIdx, st =>
    if isBlank p then processRemainingAux gen n docId rest (pageIdx + 1) st
    else
      processRemainingAux gen n docId rest (pageIdx + 1)
        (insertQuestions st docId pageIdx (mcqFromPages gen n [p]))

/-- The background continuation over `pages_text[1:]`, numbering from
page 2. -/
def processRemainingPages (gen : GenClient) (n docId : Nat)
    (remaining : List String) (st : DBState) : DBState :=
  processRemainingAux gen n docId remaining 2 st

/-- The whole pipeline: synchronous stage, then (when spawned) the
background continuation run to completion. -/
def generateMCQFull (gen : GenClient) (st : DBState) (docId : Nat)
    (pages : List String) (n : Nat) : MCQResponse × DBState :=
  let sync := generateMCQSync gen st docId pages n
  let final :=
    if sync.spawnBackground then
      processRemainingPages gen n docId (pages.drop 1) sync.state
    else sync.state
  (sync.response, final)

/-! ## Declarative views of the pipeline -/

/-- The candidate content carried by a service-level question. -/
def contentOfPaged (q : PagedQuestion) : GenQuestion :=
  ⟨q.question, q.choices, q.correctAnswer, q.explanation⟩

/-- The candidate content and page number carried by a persisted row. -/
def contentOf (q : DBMCQQuestion) : GenQuestion × Nat :=
  (⟨q.question, q.choices, q.correctAnswer, q.explanation⟩, q.pageNumber)

/-- What one page contributes: nothing if blank or failed, otherwise the
client's candidates. -/
def pageResult (gen : GenClient) (n : Nat) (p : String) : List GenQuestion :=
  if isBlank p then [] else (gen n p).getD []

/-- Per-page contributions of the background stage, tagged with their
true page numbers starting at `k`. -/
def bgContent (gen : GenClient) (n : Nat) : List String → Nat → List (GenQuestion × Nat)
  | [], _ => []
  | p :: rest, k =>
    (pageResult gen n p).map (fun g => (g, k)) ++ bgContent gen n rest (k + 1)

/-- Content and page-number view of everything the pipeline persists:
page 1 from the synchronous stage, pages 2.. from the background one. -/
def fullContent (gen : GenClient) (n : Nat) (pages : List String) :
    List (GenQuestion × Nat) :=
  (match pages with
   | [] => []
   | p :: _ => (pageResult gen n p).map (fun g => (g, 1)))
    ++ bgContent gen n (pages.drop 1) 2

/-- The rows `insertQuestions` appends, with their database ids. -/
def insertedBlock (startId docId pageNum : Nat) : List PagedQuestion → List DBMCQQuestion
  | [] => []
  | q :: qs =>
    ⟨startId, docId, q.question, q.choices, q.correctAnswer, q.explanation, pageNum⟩
      :: insertedBlock (startId + 1) docId pageNum qs

/-- The rows the background stage appends, with their database ids. -/
def bgRows (gen : GenClient) (n docId : Nat) :
    List String → Nat → Nat → List DBMCQQuestion
  | [], _, _ => []
  | p :: rest, pageIdx, nid =>
    if isBlank p then bgRows gen n docId rest (pageIdx + 1) nid
    else
      insertedBlock nid docId pageIdx (mcqFromPages gen n [p])
        ++ bgRows gen n docId rest (pageIdx + 1)
            (nid + (mcqFromPages gen n [p]).length)

/-! ## Pipeline lemmas -/

theorem tagQuestions_map_content :
    ∀ (qs : List GenQuestion) (i pn : Nat),
      (tagQuestions qs i pn).map contentOfPaged = qs := by
  intro qs
  induction qs with
  | nil => intro i pn; rfl
  | cons q qs ih =>
    intro i pn
    simp [tagQuestions, contentOfPaged, ih]

theorem mcqFromPages_single_content (gen : GenClient) (n : Nat) (p : String) :
    (mcqFromPages gen n [p]).map contentOfPaged = pageResult gen n p := by
  rw [mcqFromPages, pageResult]
  cases hb : isBlank p
  · cases hg : gen n p with
    | none => simp [mcqFromPagesAux, hb, hg]
    | some qs => simp [mcqFromPagesAux, hb, hg, tagQuestions_map_content]
  · simp [mcqFromPagesAux, hb]

theorem insertedBlock_length (docId pageNum : Nat) :
    ∀ (qs : List PagedQuestion) (i : Nat),
      (insertedBlock i docId pageNum qs).length = qs.length := by
  intro qs
  induction qs with
  | nil => intro i; rfl
  | cons q qs ih => intro i; simp [insertedBlock, ih]

theorem insertedBlock_map_content (docId pageNum : Nat) :
    ∀ (qs : List PagedQuestion) (i : Nat),
      (insertedBlock i docId pageNum qs).map contentOf
        = (qs.map contentOfPaged).map (fun g => (g, pageNum)) := by
  intro qs
  induction qs with
  | nil => intro i; rfl
  | cons q qs ih =>
    intro i
    simp [insertedBlock, contentOf, contentOfPaged, ih]

theorem insertQuestions_spec (docId pageNum : Nat) :
    ∀ (qs : List PagedQuestion) (st : DBState),
      insertQuestions st docId pageNum qs
        = { st with
            questions := st.questions ++ insertedBlock st.nextQuestionId docId pageNum qs
            nextQuestionId := st.nextQuestionId + qs.length } := by
  intro qs
  induction qs with
  | nil =>
    intro st
    simp [insertQuestions, insertedBlock]
  | cons q qs ih =>
    intro st
    show insertQuestions (insertQuestion st docId pageNum q) docId pageNum qs = _
    rw [ih]
    cases st
    simp [insertQuestion, insertedBlock]
    omega

theorem processRemainingAux_spec (gen : GenClient) (n docId : Nat) :
    ∀ (ps : List String) (k : Nat) (st : DBState),
      processRemainingAux gen n docId ps k st
        = { st with
            questions := st.questions ++ bgRows gen n docId ps k st.nextQuestionId
            nextQuestionId := st.nextQuestionId
              + (bgRows gen n docId ps k st.nextQuestionId).length } := by
  intro ps
  induction ps with
  | nil =>
    intro k st
    simp [processRemainingAux, bgRows]
  | cons p rest ih =>
    intro k st
    cases hb : isBlank p
    · show processRemainingAux gen n docId (p :: rest) k st = _
      rw [processRemainingAux]
      simp only [hb, Bool.false_eq_true, if_false]
      rw [ih, insertQuestions_spec]
      cases st
      simp only [bgRows, hb, Bool.false_eq_true, if_false]
      simp [insertedBlock_length, List.append_assoc]
      omega
    · show processRemainingAux gen n docId (p :: rest) k st = _
      rw [processRemainingAux]
      simp only [hb, if_true]
      rw [ih]
      cases st
      simp only [bgRows, hb, if_true]

theorem bgRows_map_content (gen : GenClient) (n docId : Nat) :
    ∀ (ps : List String) (k nid : Nat),
      (bgRows gen n docId ps k nid).map contentOf = bgContent gen n ps k := by
  intro ps
  induction ps with
  | nil => intro k nid; rfl
  | cons p rest ih =>
    intro k nid
    cases hb : isBlank p
    · simp only [bgRows, bgContent, hb, Bool.false_eq_true, if_false, List.map_append]
      rw [insertedBlock_map_content, mcqFromPages_single_content, ih]
    · simp only [bgRows, bgContent, hb, if_true, ih]
      have : pageResult gen n p = [] := by
        rw [pageResult, hb]
        rfl
      rw [this]
      rfl

theorem bgContent_page_bounds (gen : GenClient) (n : Nat) :
    ∀ (ps : List String) (k : Nat), ∀ gj ∈ bgContent gen n ps k,
      k ≤ gj.2 ∧ gj.2 < k + ps.length := by
  intro ps
  induction ps with
  | nil => intro k gj h; simp [bgContent] at h
  | cons p rest ih =>
    intro k gj h
    rw [bgContent, List.mem_append] at h
    rcases h with h | h
    · rw [List.mem_map] at h
      obtain ⟨g, _, hgj⟩ := h
      rw [← hgj]
      simp
    · have := ih (k + 1) gj h
      simp only [List.length_cons]
      omega

/-- Running the pipeline equals running the background stage on the
remainder unconditionally: when at most one page exists the remainder is
empty and the background stage is the identity. -/
theorem generateMCQFull_state (gen : GenClient) (st : DBState) (docId : Nat)
    (pages : List String) (n : Nat) :
    (generateMCQFull gen st docId pages n).2
      = processRemainingPages gen n docId (pages.drop 1)
          (generateMCQSync gen st docId pages n).state := by
  show (if (generateMCQSync gen st docId pages n).spawnBackground = true
      then processRemainingPages gen n docId (pages.drop 1)
        (generateMCQSync gen st docId pages n).state
      else (generateMCQSync gen st docId pages n).state) = _
  by_cases h : pages.length > 1
  · rw [if_pos (show (generateMCQSync gen st docId pages n).spawnBackground = true
      from decide_eq_true h)]
  · rw [if_neg]
    · have hd : pages.drop 1 = [] := by
        cases pages with
        | nil => rfl
        | cons p rest =>
          cases rest with
          | nil => rfl
          | cons q rest2 =>
            exfalso
            apply h
            simp only [List.length_cons]
            omega
      rw [hd]
      rfl
    · show ¬ ((decide (pages.length > 1)) = true)
      simp only [decide_eq_true_eq]
      exact h

theorem fullContent_page_bounds (gen : GenClient) (n : Nat) (pages : List String) :
    ∀ gj ∈ fullContent gen n pages, 1 ≤ gj.2 ∧ gj.2 ≤ pages.length := by
  cases pages with
  | nil =>
    intro gj h
    simp [fullContent, bgContent] at h
  | cons p rest =>
    intro gj h
    rw [fullContent, List.mem_append] at h
    rcases h with h | h
    · rw [List.mem_map] at h
      obtain ⟨g, _, hgj⟩ := h
      rw [← hgj]
      simp only [List.length_cons]
      constructor
      · exact Nat.le_refl 1
      · omega
    · have hb := bgContent_page_bounds gen n ((p :: rest).drop 1) 2 gj h
      simp only [List.drop_succ_cons, List.drop_zero] at hb
      simp only [List.length_cons]
      omega

/-- C8: for every document whose extraction yields N pages, the response
reports pageCount = N, the run only appends to the question table, the
appended rows carry exactly the per-page generated content tagged with
its true page number (1 for the synchronous stage, 2.. in extraction
order for the background stage), and every appended row's page number
lies in [1, N]. -/
theorem mcq_pageCount_and_page_numbers (gen : GenClient) (st : DBState)
    (docId : Nat) (pages : List String) (n : Nat) :
    (generateMCQFull gen st docId pages n).1.pageCount = pages.length
      ∧ ((generateMCQFull gen st docId pages n).2.questions).take st.questions.length
          = st.questions
      ∧ (((generateMCQFull gen st docId pages n).2.questions).drop
            st.questions.length).map contentOf = fullContent gen n pages
      ∧ ∀ q ∈ ((generateMCQFull gen st docId pages n).2.questions).drop
            st.questions.length,
          1 ≤ q.pageNumber ∧ q.pageNumber ≤ pages.length := by
  have hq : (generateMCQFull gen st docId pages n).2.questions
      = st.questions
        ++ (insertedBlock st.nextQuestionId docId 1 (firstPageQs gen n pages)
            ++ bgRows gen n docId (pages.drop 1) 2
                (st.nextQuestionId + (firstPageQs gen n pages).length)) := by
    rw [generateMCQFull_state]
    simp only [processRemainingPages]
    rw [processRemainingAux_spec]
    have hst : (generateMCQSync gen st docId pages n).state
        = insertQuestions st docId 1 (firstPageQs gen n pages) := rfl
    rw [hst, insertQuestions_spec]
    simp [List.append_assoc]
  have hcontent : (((generateMCQFull gen st docId pages n).2.questions).drop
        st.questions.length).map contentOf = fullContent gen n pages := by
    rw [hq, List.drop_left, List.map_append, bgRows_map_content,
      insertedBlock_map_content, fullContent.eq_def]
    congr 1
    cases pages with
    | nil => rfl
    | cons p rest =>
      show ((if isBlank p then [] else mcqFromPages gen n [p]).map contentOfPaged).map
          (fun g => (g, 1)) = (pageResult gen n p).map (fun g => (g, 1))
      cases hb : isBlank p
      · simp only [hb, Bool.false_eq_true, if_false]
        rw [mcqFromPages_single_content]
      · simp only [hb, if_true]
        rw [pageResult, hb]
        rfl
  refine ⟨rfl, ?_, hcontent, ?_⟩
  · rw [hq, List.take_left]
  · intro q hqmem
    have hm : contentOf q ∈ fullContent gen n pages := by
      rw [← hcontent]
      exact List.mem_map_of_mem contentOf hqmem
    exact fullContent_page_bounds gen n pages (contentOf q) hm

/-- C3: when page 1 is blank the synchronous stage returns no first-page
questions, issues no generation call, and leaves the database unchanged,
while the background continuation is spawned exactly when the page list
has more than one page — a decision independent of the generation
client, hence of whether page 1 yielded any questions. -/
theorem sync_blank_first_page (gen gen2 : GenClient) (st : DBState) (docId : Nat)
    (p : String) (rest : List String) (n : Nat) (hb : isBlank p = true) :
    (generateMCQSync gen st docId (p :: rest) n).response.questions = []
      ∧ (generateMCQSync gen st docId (p :: rest) n).genCalls = []
      ∧ (generateMCQSync gen st docId (p :: rest) n).state = st
      ∧ ((generateMCQSync gen st docId (p :: rest) n).spawnBackground = true ↔ rest ≠ [])
      ∧ (generateMCQSync gen2 st docId (p :: rest) n).spawnBackground
          = (generateMCQSync gen st docId (p :: rest) n).spawnBackground := by
  have hfq : firstPageQs gen n (p :: rest) = [] := by
    simp [firstPageQs, hb]
  refine ⟨hfq, ?_, ?_, ?_, rfl⟩
  · show syncCallList n (p :: rest) = []
    simp [syncCallList, hb]
  · show insertQuestions st docId 1 (firstPageQs gen n (p :: rest)) = st
    rw [hfq]
    rfl
  · show decide ((p :: rest).length > 1) = true ↔ rest ≠ []
    rw [decide_eq_true_eq]
    simp only [List.length_cons]
    constructor
    · intro h hr
      rw [hr] at h
      simp at h
    · intro h
      have := List.length_pos.mpr h
      omega

/-- A generation candidate used in concrete runs. -/
def sampleQuestion : GenQuestion :=
  ⟨"Q?", [⟨"A", "option a"⟩, ⟨"B", "option b"⟩], "A", "because"⟩

/-- A client that always succeeds with one candidate. -/
def genOk : GenClient := fun _ _ => some [sampleQuestion]

/-- A client that always fails. -/
def genNone : GenClient := fun _ _ => none

/-- Witness for C3: blank page 1 followed by one more page. -/
theorem sync_blank_first_page_witness :
    isBlank " " = true
      ∧ ((generateMCQSync genOk emptyState 1 [" ", "text"] 3).response.questions = []
        ∧ (generateMCQSync genOk emptyState 1 [" ", "text"] 3).genCalls = []
        ∧ (generateMCQSync genOk emptyState 1 [" ", "text"] 3).state = emptyState
        ∧ ((generateMCQSync genOk emptyState 1 [" ", "text"] 3).spawnBackground = true
            ↔ ["text"] ≠ [])
        ∧ (generateMCQSync genNone emptyState 1 [" ", "text"] 3).spawnBackground
            = (generateMCQSync genOk emptyState 1 [" ", "text"] 3).spawnBackground) :=
  ⟨by decide, sync_blank_first_page genOk genNone emptyState 1 " " ["text"] 3 (by decide)⟩

/-- C7 (code behaviour at the failing input): the schema declares no
bounds on the per-page count and the endpoint performs no range check,
so counts 11 and 0 — outside [1,10] — pass straight through and are
forwarded to the generation client. -/
theorem no_count_range_validation (gen : GenClient) (st : DBState) (docId : Nat) :
    (generateMCQSync gen st docId ["sample text"] 11).genCalls = [(11, "sample text")]
      ∧ (generateMCQSync gen st docId ["sample text"] 0).genCalls = [(0, "sample text")] := by
  have hnb : isBlank "sample text" = false := by decide
  constructor
  · show syncCallList 11 ["sample text"] = [(11, "sample text")]
    simp [syncCallList, hnb]
  · show syncCallList 0 ["sample text"] = [(0, "sample text")]
    simp [syncCallList, hnb]

/-- Map-then-tag lists whose tag equals the banned page number are
entirely removed by the page filter. -/
theorem head_filter_out (l : List GenQuestion) (t : Nat) :
    (l.map (fun g => (g, t))).filter (fun gj => gj.2 != t) = [] := by
  induction l with
  | nil => rfl
  | cons a l ih => simp [List.filter_cons, ih]

theorem bgContent_filter_agree (g g2 : GenClient) (n t : Nat) :
    ∀ (ps : List String) (start : Nat),
      (∀ i, (hi : i < ps.length) → start + i ≠ t → g n ps[i] = g2 n ps[i]) →
      (bgContent g n ps start).filter (fun gj => gj.2 != t)
        = (bgContent g2 n ps start).filter (fun gj => gj.2 != t) := by
  intro ps
  induction ps with
  | nil => intro start _; rfl
  | cons p rest ih =>
    intro start hagree
    show ((pageResult g n p).map (fun g0 => (g0, start))
        ++ bgContent g n rest (start + 1)).filter (fun gj => gj.2 != t)
      = ((pageResult g2 n p).map (fun g0 => (g0, start))
        ++ bgContent g2 n rest (start + 1)).filter (fun gj => gj.2 != t)
    rw [List.filter_append, List.filter_append]
    have htail : (bgContent g n rest (start + 1)).filter (fun gj => gj.2 != t)
        = (bgContent g2 n rest (start + 1)).filter (fun gj => gj.2 != t) := by
      apply ih
      intro i hi hne
      have h2 := hagree (i + 1) (by simp only [List.length_cons]; omega) (by omega)
      simpa using h2
    rw [htail]
    congr 1
    by_cases hs : start = t
    · subst hs
      rw [head_filter_out, head_filter_out]
    · have h0 := hagree 0 (by simp) (by omega)
      simp only [List.getElem_cons_zero] at h0
      rw [show pageResult g n p = pageResult g2 n p from by simp [pageResult, h0]]

/-- C4: in the background continuation over pages 2..N each page is
generated and committed independently: the persisted rows decompose
page by page, and two clients that agree on every page except page
k + 2 persist exactly the same content for all other pages — a failure
on one page neither prevents later pages nor rolls back earlier ones. -/
theorem background_failure_isolated (g g2 : GenClient) (n docId : Nat)
    (st : DBState) (ps : List String) (k : Nat)
    (hagree : ∀ i, (hi : i < ps.length) → i ≠ k → g n ps[i] = g2 n ps[i]) :
    ((processRemainingPages g n docId ps st).questions.drop
        st.questions.length).map contentOf = bgContent g n ps 2
      ∧ ((((processRemainingPages g n docId ps st).questions.drop
            st.questions.length).map contentOf).filter (fun gj => gj.2 != k + 2))
        = ((((processRemainingPages g2 n docId ps st).questions.drop
            st.questions.length).map contentOf).filter (fun gj => gj.2 != k + 2)) := by
  have hg : ∀ g3 : GenClient,
      ((processRemainingPages g3 n docId ps st).questions.drop
        st.questions.length).map contentOf = bgContent g3 n ps 2 := by
    intro g3
    simp only [processRemainingPages]
    rw [processRemainingAux_spec]
    show ((st.questions ++ bgRows g3 n docId ps 2 st.nextQuestionId).drop
      st.questions.length).map contentOf = bgContent g3 n ps 2
    rw [List.drop_left, bgRows_map_content]
  refine ⟨hg g, ?_⟩
  rw [hg g, hg g2]
  apply bgContent_filter_agree
  intro i hi hne
  exact hagree i hi (by omega)

/-- The remaining pages (2..5) of a five-page document. -/
def c4Pages : List String := ["p2", "p3", "p4", "p5"]

/-- A client that fails exactly on page 3's text. -/
def genFailP3 : GenClient := fun _ s => if s = "p3" then none else some [sampleQuestion]

/-- Witness for C4: failure on page 3 of 5; pages 4 and 5 are still
persisted while page 3 contributes nothing. -/
theorem background_failure_isolated_witness :
    (∀ i, (hi : i < c4Pages.length) → i ≠ 1 → genFailP3 3 c4Pages[i] = genOk 3 c4Pages[i])
      ∧ (((processRemainingPages genFailP3 3 1 c4Pages emptyState).questions.drop
            emptyState.questions.length).map contentOf = bgContent genFailP3 3 c4Pages 2
        ∧ ((((processRemainingPages genFailP3 3 1 c4Pages emptyState).questions.drop
              emptyState.questions.length).map contentOf).filter (fun gj => gj.2 != 1 + 2))
          = ((((processRemainingPages genOk 3 1 c4Pages emptyState).questions.drop
              emptyState.questions.length).map contentOf).filter (fun gj => gj.2 != 1 + 2)))
      ∧ (sampleQuestion, 4)
          ∈ ((processRemainingPages genFailP3 3 1 c4Pages emptyState).questions).map contentOf
      ∧ (sampleQuestion, 5)
          ∈ ((processRemainingPages genFailP3 3 1 c4Pages emptyState).questions).map contentOf
      ∧ (sampleQuestion, 3)
          ∉ ((processRemainingPages genFailP3 3 1 c4Pages emptyState).questions).map contentOf :=
  ⟨by decide,
   background_failure_isolated genFailP3 genOk 3 1 emptyState c4Pages 1 (by decide),
   by decide, by decide, by decide⟩

/-! ## Flashcards (`generate_flashcards` in `app/routes/study.py`) -/

/-- A flashcard candidate as produced by the generation client. -/
structure RawFlashcard where
  front : String
  back : String
  explanation : String
deriving Repr, DecidableEq

/-- External flashcard client: requested per-page count and page text
in, candidates out; `none` models a failed or malformed call. -/
def FlashClient : Type := Nat → String → Option (List RawFlashcard)

/-- The endpoint's failure modes: unknown document, no extracted text,
or an empty generated set. -/
inductive FlashError
  | notFound
  | noExtractableText
  | generationEmpty
deriving Repr, DecidableEq

/-- `generate_flashcards_from_pages`: skip blank pages, skip failed or
malformed calls, concatenate the candidate sets. -/
def flashcardsFromPages (fc : FlashClient) (cnt : Nat) : List String → List RawFlashcard
  | [] => []
  | p :: rest =>
    (if isBlank p then [] else (fc cnt p).getD []) ++ flashcardsFromPages fc cnt rest

/-- The generation calls issued: one per non-blank page. -/
def flashCallList (cnt : Nat) (pages : List String) : List (Nat × String) :=
  (pages.filter (fun p => !(isBlank p))).map (fun p => (cnt, p))

/-- The insert loop with `db.flush()`: each card receives the next id,
and the inserted rows are returned in order. -/
def insertFlashcards : DBState → Nat → List RawFlashcard → DBState × List Flashcard
  | st, _, [] => (st, [])
  | st, d, c :: cs =>
    let row : Flashcard := ⟨st.nextFlashcardId, d, c.front, c.back, c.explanation⟩
    let st1 : DBState :=
      { st with flashcards := st.flashcards ++ [row]
                nextFlashcardId := st.nextFlashcardId + 1 }
    let r := insertFlashcards st1 d cs
    (r.1, row :: r.2)

/-- The rows `insertFlashcards` produces, with their database ids. -/
def fcBlock (startId d : Nat) : List RawFlashcard → List Flashcard
  | [] => []
  | c :: cs => ⟨startId, d, c.front, c.back, c.explanation⟩ :: fcBlock (startId + 1) d cs

instance {ε α : Type} [DecidableEq ε] [DecidableEq α] : DecidableEq (Except ε α) := fun a b =>
  match a, b with
  | .error e, .error e2 =>
    match decEq e e2 with
    | isTrue h => isTrue (by rw [h])
    | isFalse h => isFalse (by intro hc; injection hc; exact h ‹_›)
  | .error _, .ok _ => isFalse (by intro hc; cases hc)
  | .ok _, .error _ => isFalse (by intro hc; cases hc)
  | .ok x, .ok y =>
    match decEq x y with
    | isTrue h => isTrue (by rw [h])
    | isFalse h => isFalse (by intro hc; injection hc; exact h ‹_›)

/-- Outcome of the flashcard endpoint: the returned cards with a
from-cache flag, the resulting state, and the generation calls made. -/
structure FlashResult where
  outcome : Except FlashError (List Flashcard × Bool)
  state : DBState
  calls : List (Nat × String)
deriving Repr, DecidableEq

/-- `generate_flashcards`: look the document up by filename and user; if
any Flashcard rows exist return them verbatim; otherwise fail when the
extractor returned no pages, generate per non-blank page with a fixed
count of 5, fail when nothing was generated, else persist the full set
in one commit. Every failure path leaves the state unchanged
(`db.rollback()`). -/
def generateFlashcardsEp (fc : FlashClient) (st : DBState) (u : Nat)
    (fn : String) (pages : List String) : FlashResult :=
  match st.documents.find? (fun doc => doc.filename == fn && doc.userId == u) with
  | none => ⟨.error .notFound, st, []⟩
  | some doc =>
    let existing := st.flashcards.filter (fun c => c.documentId == doc.id)
    if existing.isEmpty then
      if pages.isEmpty then ⟨.error .noExtractableText, st, []⟩
      else
        let raw := flashcardsFromPages fc 5 pages
        if raw.isEmpty then ⟨.error .generationEmpty, st, flashCallList 5 pages⟩
        else
          let r := insertFlashcards st doc.id raw
          ⟨.ok (r.2, false), r.1, flashCallList 5 pages⟩
    else ⟨.ok (existing, true), st, []⟩

theorem insertFlashcards_spec (d : Nat) :
    ∀ (cs : List RawFlashcard) (st : DBState),
      insertFlashcards st d cs
        = ({ st with
             flashcards := st.flashcards ++ fcBlock st.nextFlashcardId d cs
             nextFlashcardId := st.nextFlashcardId + cs.length },
           fcBlock st.nextFlashcardId d cs) := by
  intro cs
  induction cs with
  | nil =>
    intro st
    simp [insertFlashcards, fcBlock]
  | cons c cs ih =>
    intro st
    rw [insertFlashcards]
    rw [ih]
    cases st
    simp [fcBlock, List.append_assoc]
    omega

/-- C5: flashcard generation is an idempotent cache: for a document
that already has Flashcard rows the endpoint returns exactly those rows
(same ids, same count, cached flag), makes no generation call, changes
nothing, and a second call — with any client and any extraction result —
returns the identical set. -/
theorem flashcards_cached_idempotent (fc fc2 : FlashClient) (st : DBState)
    (u : Nat) (fn : String) (pages pages2 : List String) (doc : StudyDocument)
    (hfind : st.documents.find? (fun dd => dd.filename == fn && dd.userId == u) = some doc)
    (hex : st.flashcards.filter (fun c => c.documentId == doc.id) ≠ []) :
    generateFlashcardsEp fc st u fn pages
        = ⟨.ok (st.flashcards.filter (fun c => c.documentId == doc.id), true), st, []⟩
      ∧ generateFlashcardsEp fc2 (generateFlashcardsEp fc st u fn pages).state u fn pages2
        = generateFlashcardsEp fc st u fn pages := by
  have hie : (st.flashcards.filter (fun c => c.documentId == doc.id)).isEmpty = false := by
    cases hh : (st.flashcards.filter (fun c => c.documentId == doc.id)).isEmpty
    · rfl
    · exact absurd (List.isEmpty_iff.mp hh) hex
  have hmain : generateFlashcardsEp fc st u fn pages
      = ⟨.ok (st.flashcards.filter (fun c => c.documentId == doc.id), true), st, []⟩ := by
    rw [generateFlashcardsEp.eq_def, hfind]
    simp [hie]
  have hmain2 : generateFlashcardsEp fc2 st u fn pages2
      = ⟨.ok (st.flashcards.filter (fun c => c.documentId == doc.id), true), st, []⟩ := by
    rw [generateFlashcardsEp.eq_def, hfind]
    simp [hie]
  refine ⟨hmain, ?_⟩
  rw [hmain]
  rw [show (FlashResult.mk
      (.ok (st.flashcards.filter (fun c => c.documentId == doc.id), true)) st []).state
    = st from rfl]
  rw [hmain2]

/-- A document with one cached flashcard, owned by user 2. -/
def c5State : DBState :=
  ⟨[⟨1, 2, "doc.pdf", 1⟩], [], [⟨1, 1, "front", "back", "why"⟩], [], 1, 2⟩

/-- A flashcard client that always succeeds with one candidate. -/
def flashOk : FlashClient := fun _ _ => some [⟨"F", "B", "E"⟩]

/-- A flashcard client that always fails. -/
def flashNone : FlashClient := fun _ _ => none

/-- Witness for C5 at a state that already holds one flashcard. -/
theorem flashcards_cached_idempotent_witness :
    (c5State.documents.find? (fun dd => dd.filename == "doc.pdf" && dd.userId == 2)
        = some ⟨1, 2, "doc.pdf", 1⟩)
      ∧ (c5State.flashcards.filter (fun c => c.documentId == 1) ≠ [])
      ∧ (generateFlashcardsEp flashOk c5State 2 "doc.pdf" ["text"]
            = ⟨.ok (c5State.flashcards.filter (fun c => c.documentId == 1), true), c5State, []⟩
        ∧ generateFlashcardsEp flashNone
            (generateFlashcardsEp flashOk c5State 2 "doc.pdf" ["text"]).state 2 "doc.pdf" []
          = generateFlashcardsEp flashOk c5State 2 "doc.pdf" ["text"]) :=
  ⟨by decide, by decide,
   flashcards_cached_idempotent flashOk flashNone c5State 2 "doc.pdf" ["text"] []
     ⟨1, 2, "doc.pdf", 1⟩ (by decide) (by decide)⟩

/-- A document of user 2 with no flashcards yet. -/
def c6State : DBState := ⟨[⟨1, 2, "doc.pdf", 1⟩], [], [], [], 1, 1⟩

/-- C6 counterexample: extraction yielding one blank page — hence no
non-blank pages — does not fail with the no-extractable-text error as
claimed; the code only checks emptiness of the page list, proceeds, and
fails with the empty-generation error instead. -/
theorem flashcards_blank_page_error_kind :
    [""].filter (fun p => !(isBlank p)) = []
      ∧ (generateFlashcardsEp flashOk c6State 2 "doc.pdf" [""]).outcome
          = .error .generationEmpty
      ∧ (generateFlashcardsEp flashOk c6State 2 "doc.pdf" [""]).outcome
          ≠ .error .noExtractableText := by
  refine ⟨by decide, by decide, by decide⟩

/-- C6 (amended): with no cached flashcards, the endpoint fails with
NoExtractableText exactly when the extractor returned an empty page
list; when pages exist but the generation calls collectively produce
zero candidates (including when every page is blank) it fails with
GenerationEmpty; every failure leaves the flashcard table unchanged, and
success appends the complete generated set in one commit — so the
document ends with either zero flashcards or the full set. -/
theorem flashcards_failure_rollback (fc : FlashClient) (st : DBState) (u : Nat)
    (fn : String) (pages : List String) (doc : StudyDocument)
    (hfind : st.documents.find? (fun dd => dd.filename == fn && dd.userId == u) = some doc)
    (hnone : st.flashcards.filter (fun c => c.documentId == doc.id) = []) :
    (pages = [] →
        (generateFlashcardsEp fc st u fn pages).outcome = .error .noExtractableText
          ∧ (generateFlashcardsEp fc st u fn pages).state = st)
      ∧ (pages ≠ [] → flashcardsFromPages fc 5 pages = [] →
          (generateFlashcardsEp fc st u fn pages).outcome = .error .generationEmpty
            ∧ (generateFlashcardsEp fc st u fn pages).state = st)
      ∧ (pages ≠ [] → flashcardsFromPages fc 5 pages ≠ [] →
          (generateFlashcardsEp fc st u fn pages).outcome
              = .ok (fcBlock st.nextFlashcardId doc.id (flashcardsFromPages fc 5 pages), false)
            ∧ (generateFlashcardsEp fc st u fn pages).state.flashcards
              = st.flashcards ++ fcBlock st.nextFlashcardId doc.id
                  (flashcardsFromPages fc 5 pages)) := by
  have hie : (st.flashcards.filter (fun c => c.documentId == doc.id)).isEmpty = true := by
    rw [hnone]
    rfl
  refine ⟨?_, ?_, ?_⟩
  · intro hp
    subst hp
    rw [generateFlashcardsEp.eq_def, hfind]
    simp [hie]
  · intro hp hraw
    have hpe : pages.isEmpty = false := by
      cases hh : pages.isEmpty
      · rfl
      · exact absurd (List.isEmpty_iff.mp hh) hp
    have hre : (flashcardsFromPages fc 5 pages).isEmpty = true := by
      rw [hraw]
      rfl
    rw [generateFlashcardsEp.eq_def, hfind]
    simp [hie, hpe, hre]
  · intro hp hraw
    have hpe : pages.isEmpty = false := by
      cases hh : pages.isEmpty
      · rfl
      · exact absurd (List.isEmpty_iff.mp hh) hp
    have hre : (flashcardsFromPages fc 5 pages).isEmpty = false := by
      cases hh : (flashcardsFromPages fc 5 pages).isEmpty
      · rfl
      · exact absurd (List.isEmpty_iff.mp hh) hraw
    rw [generateFlashcardsEp.eq_def, hfind]
    simp only [hie, hpe, hre, Bool.false_eq_true, if_false, if_true]
    rw [insertFlashcards_spec]
    simp

/-- Witness for C6 (amended): a successful generation over one non-blank
page appends the complete set. -/
theorem flashcards_failure_rollback_witness :
    (c6State.documents.find? (fun dd => dd.filename == "doc.pdf" && dd.userId == 2)
        = some ⟨1, 2, "doc.pdf", 1⟩)
      ∧ (c6State.flashcards.filter (fun c => c.documentId == 1) = [])
      ∧ (["text"] ≠ ([] : List String))
      ∧ (flashcardsFromPages flashOk 5 ["text"] ≠ [])
      ∧ ((generateFlashcardsEp flashOk c6State 2 "doc.pdf" ["text"]).outcome
            = .ok (fcBlock c6State.nextFlashcardId 1 (flashcardsFromPages flashOk 5 ["text"]),
                false)
        ∧ (generateFlashcardsEp flashOk c6State 2 "doc.pdf" ["text"]).state.flashcards
            = c6State.flashcards
              ++ fcBlock c6State.nextFlashcardId 1 (flashcardsFromPages flashOk 5 ["text"])) :=
  ⟨by decide, by decide, by decide, by decide,
   (flashcards_failure_rollback flashOk c6State 2 "doc.pdf" ["text"] ⟨1, 2, "doc.pdf", 1⟩
     (by decide) (by decide)).2.2 (by decide) (by decide)⟩

/-- C10: the document-scoped bulk-clear deletes exactly the requesting
user's attempt rows for the given document: every other attempt row
keeps its multiplicity, and the document, question and flashcard tables
(and id counters) are untouched. -/
theorem clear_progress_frame (st st2 : DBState) (u d : Nat)
    (h : clearDocumentProgress st u d = some st2) :
    st2.documents = st.documents
      ∧ st2.questions = st.questions
      ∧ st2.flashcards = st.flashcards
      ∧ st2.nextQuestionId = st.nextQuestionId
      ∧ st2.nextFlashcardId = st.nextFlashcardId
      ∧ (∀ a : AttemptRecord,
          a ∈ st2.attempts ↔ a ∈ st.attempts ∧ ¬(a.userId = u ∧ a.documentId = d))
      ∧ (∀ a ∈ st.attempts, (a.userId ≠ u ∨ a.documentId ≠ d) →
          st2.attempts.count a = st.attempts.count a) := by
  rw [clearDocumentProgress] at h
  by_cases hdoc : st.documents.any (fun doc => doc.id == d && doc.userId == u)
  · rw [if_pos hdoc] at h
    have hst2 : st2 = { st with
        attempts := st.attempts.filter (fun a => !(attemptFilter u d a)) } := by
      injection h with h2
      rw [h2]
    subst hst2
    refine ⟨rfl, rfl, rfl, rfl, rfl, ?_, ?_⟩
    · intro a
      show a ∈ st.attempts.filter (fun a => !(attemptFilter u d a)) ↔ _
      rw [List.mem_filter]
      simp [attemptFilter]
      tauto
    · intro a _ ha
      show (st.attempts.filter (fun a => !(attemptFilter u d a))).count a = _
      apply List.count_filter
      simp [attemptFilter]
      tauto
  · rw [if_neg hdoc] at h
    cases h

/-- Attempt rows of two users across two documents. -/
def c10Attempts : List AttemptRecord :=
  [⟨1, 1, 1, 5, true, 10⟩, ⟨2, 1, 2, 6, false, 11⟩,
   ⟨3, 2, 1, 7, true, 12⟩, ⟨4, 1, 1, 8, false, 13⟩]

/-- A populated state: two documents of user 1, one question, one
flashcard, and the four attempts above. -/
def c10State : DBState :=
  ⟨[⟨1, 1, "a.pdf", 1⟩, ⟨2, 1, "b.pdf", 1⟩],
   [⟨1, 1, "q", [], "A", "", 1⟩],
   [⟨1, 1, "front", "back", "why"⟩],
   c10Attempts, 5, 5⟩

/-- The expected state after user 1 clears document 1: only the two
matching attempt rows are gone. -/
def c10Cleared : DBState :=
  ⟨[⟨1, 1, "a.pdf", 1⟩, ⟨2, 1, "b.pdf", 1⟩],
   [⟨1, 1, "q", [], "A", "", 1⟩],
   [⟨1, 1, "front", "back", "why"⟩],
   [⟨2, 1, 2, 6, false, 11⟩, ⟨3, 2, 1, 7, true, 12⟩], 5, 5⟩

/-- Witness for C10: clearing (user 1, document 1) removes exactly the
two matching rows and keeps everything else. -/
theorem clear_progress_frame_witness :
    clearDocumentProgress c10State 1 1 = some c10Cleared
      ∧ (c10Cleared.documents = c10State.documents
        ∧ c10Cleared.questions = c10State.questions
        ∧ c10Cleared.flashcards = c10State.flashcards
        ∧ c10Cleared.nextQuestionId = c10State.nextQuestionId
        ∧ c10Cleared.nextFlashcardId = c10State.nextFlashcardId
        ∧ (∀ a : AttemptRecord,
            a ∈ c10Cleared.attempts
              ↔ a ∈ c10State.attempts ∧ ¬(a.userId = 1 ∧ a.documentId = 1))
        ∧ (∀ a ∈ c10State.attempts, (a.userId ≠ 1 ∨ a.documentId ≠ 1) →
            c10Cleared.attempts.count a = c10State.attempts.count a)) :=
  ⟨by decide, clear_progress_frame c10State c10Cleared 1 1 (by decide)⟩
